import Mathlib

/- Verification development for the MCP repository: the tool-call detection
   engine of structured-output-test and the conversation orchestrator of
   simple-chatbot, shallowly embedded in Lean. -/

/-- JSON values as produced by a JSON parse. Numbers are kept as an exact
decimal: an integer mantissa and a power-of-ten exponent, normalised so that
the mantissa has no trailing zero digit. No claim compares numeric values of
distinct literals, so double rounding is not modelled. -/
inductive Json where
  | null : Json
  | bool : Bool → Json
  | num : Int → Int → Json
  | str : String → Json
  | arr : List Json → Json
  | obj : List (String × Json) → Json
deriving Repr, Inhabited

/-- The double-quote character. -/
def quoteD : Char := Char.ofNat 34
/-- The single-quote character. -/
def quoteS : Char := Char.ofNat 39
/-- The opening curly-brace character. -/
def lbrace : Char := Char.ofNat 123
/-- The closing curly-brace character. -/
def rbrace : Char := Char.ofNat 125

/-- JSON insignificant whitespace: space, tab, line feed, carriage return. -/
def jsonWsChar (c : Char) : Bool :=
  c = ' ' || c = '\t' || c = '\n' || c = '\r'

/-- Drop leading JSON whitespace. -/
def skipJsonWs : List Char → List Char
  | c :: cs => if jsonWsChar c then skipJsonWs cs else c :: cs
  | [] => []

/-- Value of one hexadecimal digit. -/
def hexDigitVal (c : Char) : Option Nat :=
  if '0' ≤ c && c ≤ '9' then some (c.toNat - 48)
  else if 'a' ≤ c && c ≤ 'f' then some (c.toNat - 87)
  else if 'A' ≤ c && c ≤ 'F' then some (c.toNat - 55)
  else none

/-- Parse exactly four hexadecimal digits. -/
def parseHex4 : List Char → Option (Nat × List Char)
  | a :: b :: c :: d :: rest =>
    match hexDigitVal a, hexDigitVal b, hexDigitVal c, hexDigitVal d with
    | some x, some y, some z, some w => some (((x * 16 + y) * 16 + z) * 16 + w, rest)
    | _, _, _, _ => none
  | _ => none

/-- UTF-16 high surrogate range. -/
def isHighSurrogate (n : Nat) : Bool := 0xD800 ≤ n && n ≤ 0xDBFF

/-- UTF-16 low surrogate range. -/
def isLowSurrogate (n : Nat) : Bool := 0xDC00 ≤ n && n ≤ 0xDFFF

/-- Parse the body of a JSON string after the opening quote, handling the
escape sequences of the JSON grammar. Surrogate pairs written as two
consecutive unicode escapes are combined; a lone surrogate (not a Lean
scalar value) becomes U+FFFD. The fuel argument only bounds recursion;
callers pass more fuel than there are input characters. -/
def parseJsonStringBody : Nat → List Char → Option (List Char × List Char)
  | 0, _ => none
  | _ + 1, [] => none
  | fuel + 1, c :: cs =>
    if c = quoteD then some ([], cs)
    else if c = '\\' then
      match cs with
      | [] => none
      | e :: cs2 =>
        if e = quoteD || e = '\\' || e = '/' then
          (parseJsonStringBody fuel cs2).map (fun p => (e :: p.1, p.2))
        else if e = 'b' then
          (parseJsonStringBody fuel cs2).map (fun p => (Char.ofNat 8 :: p.1, p.2))
        else if e = 'f' then
          (parseJsonStringBody fuel cs2).map (fun p => (Char.ofNat 12 :: p.1, p.2))
        else if e = 'n' then
          (parseJsonStringBody fuel cs2).map (fun p => ('\n' :: p.1, p.2))
        else if e = 'r' then
          (parseJsonStringBody fuel cs2).map (fun p => ('\r' :: p.1, p.2))
        else if e = 't' then
          (parseJsonStringBody fuel cs2).map (fun p => ('\t' :: p.1, p.2))
        else if e = 'u' then
          match parseHex4 cs2 with
          | none => none
          | some (n, cs3) =>
            if isHighSurrogate n then
              match cs3 with
              | b1 :: u1 :: rest =>
                if b1 = '\\' && u1 = 'u' then
                  match parseHex4 rest with
                  | some (m, cs4) =>
                    if isLowSurrogate m then
                      (parseJsonStringBody fuel cs4).map (fun p =>
                        (Char.ofNat (0x10000 + (n - 0xD800) * 0x400 + (m - 0xDC00)) :: p.1, p.2))
                    else
                      (parseJsonStringBody fuel cs3).map (fun p => (Char.ofNat 0xFFFD :: p.1, p.2))
                  | none =>
                    (parseJsonStringBody fuel cs3).map (fun p => (Char.ofNat 0xFFFD :: p.1, p.2))
                else
                  (parseJsonStringBody fuel cs3).map (fun p => (Char.ofNat 0xFFFD :: p.1, p.2))
              | _ =>
                (parseJsonStringBody fuel cs3).map (fun p => (Char.ofNat 0xFFFD :: p.1, p.2))
            else if isLowSurrogate n then
              (parseJsonStringBody fuel cs3).map (fun p => (Char.ofNat 0xFFFD :: p.1, p.2))
            else
              (parseJsonStringBody fuel cs3).map (fun p => (Char.ofNat n :: p.1, p.2))
        else none
    else if c.toNat < 32 then none
    else (parseJsonStringBody fuel cs).map (fun p => (c :: p.1, p.2))

/-- Take a maximal run of decimal digits. -/
def takeDigits : List Char → List Char × List Char
  | [] => ([], [])
  | c :: cs =>
    if c.isDigit then
      let p := takeDigits cs
      (c :: p.1, p.2)
    else ([], c :: cs)

/-- Numeric value of a digit run. -/
def digitsVal (ds : List Char) : Nat :=
  ds.foldl (fun acc c => acc * 10 + (c.toNat - 48)) 0

/-- Strip trailing zero digit characters from a mantissa digit run, so that
the stored mantissa-exponent pair is normalised. -/
def stripTrailingZeroDigits (ds : List Char) : List Char :=
  (ds.reverse.dropWhile (fun c => c = '0')).reverse

/-- Parse a JSON number per the JSON grammar: optional minus, an integer part
with no superfluous leading zero, an optional fraction, an optional exponent. -/
def parseJsonNumber (cs : List Char) : Option (Json × List Char) :=
  let sgn := match cs with
    | c :: t => if c = '-' then (true, t) else (false, cs)
    | [] => (false, ([] : List Char))
  let neg := sgn.1
  let cs1 := sgn.2
  match cs1 with
  | [] => none
  | c :: _ =>
    if !c.isDigit then none
    else
      let ip := takeDigits cs1
      let intDs := ip.1
      let cs2 := ip.2
      if intDs.length > 1 && intDs.headD '0' = '0' then none
      else
        let contFrac : Option (List Char × List Char) :=
          match cs2 with
          | p :: t =>
            if p = '.' then
              let fp := takeDigits t
              if fp.1 = [] then none else some fp
            else some ([], cs2)
          | [] => some ([], [])
        match contFrac with
        | none => none
        | some (fracDs, cs3) =>
          let contExp : Option (Int × List Char) :=
            match cs3 with
            | e :: t =>
              if e = 'e' || e = 'E' then
                let sp : Int × List Char := match t with
                  | s :: t3 =>
                    if s = '+' then (1, t3) else if s = '-' then (-1, t3) else (1, t)
                  | [] => (1, [])
                let ep := takeDigits sp.2
                if ep.1 = [] then none
                else some (sp.1 * (digitsVal ep.1 : Int), ep.2)
              else some (0, cs3)
            | [] => some (0, [])
          match contExp with
          | none => none
          | some (ex, cs4) =>
            let allDs := intDs ++ fracDs
            let stripped := stripTrailingZeroDigits allDs
            let mant : Nat := digitsVal stripped
            let e0 : Int := ex - fracDs.length + ((allDs.length : Int) - stripped.length)
            let mi : Int := if neg then -(mant : Int) else (mant : Int)
            some (Json.num mi (if mant = 0 then 0 else e0), cs4)

/-- Expect an exact character run. -/
def expectChars : List Char → List Char → Option (List Char)
  | [], cs => some cs
  | l :: ls, c :: rest => if c = l then expectChars ls rest else none
  | _ :: _, [] => none

/-- Insert a field into an object field list the way a JS object literal or
JSON.parse does: a duplicate key keeps its first position but takes the last
value, a new key is appended. -/
def objInsertJson (l : List (String × Json)) (k : String) (v : Json) : List (String × Json) :=
  if l.any (fun p => p.1 = k) then l.map (fun p => if p.1 = k then (k, v) else p)
  else l ++ [(k, v)]

mutual

/-- Parse one JSON value, skipping leading whitespace. Fueled; the top-level
entry point passes more fuel than there are input characters, which always
suffices because every recursive call first consumes at least one character. -/
def parseJsonValue : Nat → List Char → Option (Json × List Char)
  | 0, _ => none
  | fuel + 1, cs0 =>
    let cs := skipJsonWs cs0
    match cs with
    | [] => none
    | c :: rest =>
      if c = 'n' then (expectChars ['u', 'l', 'l'] rest).map (fun r => (Json.null, r))
      else if c = 't' then (expectChars ['r', 'u', 'e'] rest).map (fun r => (Json.bool true, r))
      else if c = 'f' then (expectChars ['a', 'l', 's', 'e'] rest).map (fun r => (Json.bool false, r))
      else if c = quoteD then
        (parseJsonStringBody (rest.length + 1) rest).map (fun p => (Json.str (String.mk p.1), p.2))
      else if c = lbrace then parseJsonMembers fuel (skipJsonWs rest) true []
      else if c = '[' then parseJsonElems fuel (skipJsonWs rest) true []
      else if c = '-' || c.isDigit then parseJsonNumber cs
      else none

/-- Parse object members after the opening brace (whitespace already
skipped). `first` is true only before the first member, where a closing
brace is still allowed. -/
def parseJsonMembers : Nat → List Char → Bool → List (String × Json) → Option (Json × List Char)
  | 0, _, _, _ => none
  | fuel + 1, cs, first, acc =>
    match cs with
    | [] => none
    | c :: rest =>
      if first && c = rbrace then some (Json.obj acc, rest)
      else if c = quoteD then
        match parseJsonStringBody (rest.length + 1) rest with
        | none => none
        | some (key, cs2) =>
          match skipJsonWs cs2 with
          | ':' :: cs3 =>
            match parseJsonValue fuel cs3 with
            | none => none
            | some (v, cs4) =>
              let acc2 := objInsertJson acc (String.mk key) v
              match skipJsonWs cs4 with
              | ch :: cs5 =>
                if ch = ',' then parseJsonMembers fuel (skipJsonWs cs5) false acc2
                else if ch = rbrace then some (Json.obj acc2, cs5)
                else none
              | [] => none
          | _ => none
      else none

/-- Parse array elements after the opening bracket (whitespace already
skipped). `first` is true only before the first element, where a closing
bracket is still allowed. -/
def parseJsonElems : Nat → List Char → Bool → List Json → Option (Json × List Char)
  | 0, _, _, _ => none
  | fuel + 1, cs, first, acc =>
    match cs, first with
    | ']' :: rest, true => some (Json.arr acc, rest)
    | _, _ =>
      match parseJsonValue fuel cs with
      | none => none
      | some (v, cs2) =>
        match skipJsonWs cs2 with
        | ch :: cs3 =>
          if ch = ',' then parseJsonElems fuel cs3 false (acc ++ [v])
          else if ch = ']' then some (Json.arr (acc ++ [v]), cs3)
          else none
        | [] => none

end

/-- The model of JSON.parse: parse one value, then require only whitespace
to the end of the input. -/
def parseJson (s : String) : Option Json :=
  let cs := s.data
  match parseJsonValue (cs.length + 1) cs with
  | some (v, rest) => if skipJsonWs rest = [] then some v else none
  | none => none

/-- JS whitespace for String.trim: WhiteSpace and LineTerminator code points. -/
def jsWhitespaceChar (c : Char) : Bool :=
  c = ' ' || c = '\t' || c = '\n' || c = '\r' || c = Char.ofNat 11 || c = Char.ofNat 12
  || c = Char.ofNat 0xA0 || c = Char.ofNat 0x1680
  || (0x2000 ≤ c.toNat && c.toNat ≤ 0x200A)
  || c = Char.ofNat 0x2028 || c = Char.ofNat 0x2029 || c = Char.ofNat 0x202F
  || c = Char.ofNat 0x205F || c = Char.ofNat 0x3000 || c = Char.ofNat 0xFEFF

/-- The model of JS String.trim. -/
def jsTrim (s : String) : String :=
  String.mk (((s.data.dropWhile jsWhitespaceChar).reverse.dropWhile jsWhitespaceChar).reverse)

/-- The JS test `typeof v === 'object'`: true for objects, arrays, and null. -/
def Json.typeofIsObject : Json → Bool
  | .null => true
  | .arr _ => true
  | .obj _ => true
  | _ => false

/-- JS truthiness of a parsed JSON value. -/
def Json.isTruthy : Json → Bool
  | .null => false
  | .bool b => b
  | .num m _ => m ≠ 0
  | .str s => s ≠ ""
  | .arr _ => true
  | .obj _ => true

/-- First value bound to a key in an object field list. -/
def lookupField : List (String × Json) → String → Option Json
  | [], _ => none
  | p :: rest, k => if p.1 = k then some p.2 else lookupField rest k

/-- The JS `k in v` test for the values this code probes: named keys exist
only on objects (on arrays the probed names `tool` and `arguments` are not
properties). -/
def Json.hasField : Json → String → Bool
  | .obj l, k => l.any (fun p => p.1 = k)
  | _, _ => false

/-- Property access `v.k` on a parsed value: a field of an object, absent
otherwise. -/
def Json.getField : Json → String → Option Json
  | .obj l, k => lookupField l k
  | _, _ => none

/-- Which strategy produced a detection outcome. -/
inductive DetectionMethod where
  | jsonParsing : DetectionMethod
  | textAnalysis : DetectionMethod
  | nativeToolCall : DetectionMethod
deriving Repr, DecidableEq, Inhabited

/-- A tool call request recovered from model output. On the JSON path the
arguments value is the parsed `arguments` field; on the text path it is an
object of scraped string values. -/
structure ToolCallRequest where
  toolName : String
  arguments : Json
deriving Repr, Inhabited

/-- Result of analysing model output for tool call requests. -/
structure StructuredOutputResult where
  isToolCall : Bool
  toolCallRequest : Option ToolCallRequest
  rawResponse : String
  detectionMethod : DetectionMethod
deriving Repr, Inhabited

/-- The shape test shared by both branches of detectToolCallFromJSON:
`parsed && typeof parsed === 'object' && 'tool' in parsed &&
'arguments' in parsed && typeof parsed.tool === 'string' &&
typeof parsed.arguments === 'object'`. Returns the recovered name and
arguments when the candidate matches. -/
def checkToolShape (v : Json) : Option (String × Json) :=
  if v.isTruthy && v.typeofIsObject && v.hasField "tool" && v.hasField "arguments" then
    match v.getField "tool", v.getField "arguments" with
    | some (Json.str s), some a => if a.typeofIsObject then some (s, a) else none
    | _, _ => none
  else none

/-- Index of the first occurrence of a character. -/
def firstIdxOf (c : Char) (cs : List Char) : Option Nat :=
  match cs with
  | [] => none
  | x :: rest =>
    if x = c then some 0
    else (firstIdxOf c rest).map (· + 1)

/-- Index of the last occurrence of a character. -/
def lastIdxOf (c : Char) (cs : List Char) : Option Nat :=
  (firstIdxOf c cs.reverse).map (fun k => cs.length - 1 - k)

/-- The embedded-JSON search `response.match(/{[sS]*}/)` with a greedy body:
the matched span runs from the first opening brace to the last closing brace,
provided the latter lies strictly after the former. -/
def jsonSpanMatch (s : String) : Option String :=
  let cs := s.data
  match firstIdxOf lbrace cs, lastIdxOf rbrace cs with
  | some i, some j =>
    if i < j then some (String.mk ((cs.drop i).take (j - i + 1))) else none
  | _, _ => none

/-- detectToolCallFromJSON: parse the whole trimmed response as JSON and
apply the shape test; if that fails, apply the same test to the greedy
brace-to-brace span. -/
def detectToolCallFromJSON (response : String) : StructuredOutputResult :=
  match (parseJson (jsTrim response)).bind checkToolShape with
  | some p =>
    { isToolCall := true
      toolCallRequest := some { toolName := p.1, arguments := p.2 }
      rawResponse := response
      detectionMethod := .jsonParsing }
  | none =>
    match jsonSpanMatch response with
    | some sub =>
      match (parseJson sub).bind checkToolShape with
      | some p =>
        { isToolCall := true
          toolCallRequest := some { toolName := p.1, arguments := p.2 }
          rawResponse := response
          detectionMethod := .jsonParsing }
      | none =>
        { isToolCall := false, toolCallRequest := none
          rawResponse := response, detectionMethod := .jsonParsing }
    | none =>
      { isToolCall := false, toolCallRequest := none
        rawResponse := response, detectionMethod := .jsonParsing }

/-- The regex character class `[a-zA-Z_-]` of a captured tool name. -/
def isNameChar (c : Char) : Bool :=
  c.isAlpha || c = '_' || c = '-'

/-- The regex character class `[a-zA-Z_]` of a scraped argument key. -/
def isKeyChar (c : Char) : Bool :=
  c.isAlpha || c = '_'

/-- The JS regex class matched by a backslash-s escape: whitespace and line
terminators. -/
def jsRegexSpace (c : Char) : Bool := jsWhitespaceChar c

/-- Consume a literal, comparing case-insensitively (the literals used are
ASCII lowercase, matching the i flag on the source patterns). -/
def matchLitCI : List Char → List Char → Option (List Char)
  | [], cs => some cs
  | l :: ls, c :: rest => if c.toLower = l then matchLitCI ls rest else none
  | _ :: _, [] => none

/-- Consume a maximal nonempty run of class characters, returning the run
(original characters, preserving case) and the remainder. -/
def takeClass1 (cls : Char → Bool) : List Char → Option (List Char × List Char)
  | [] => none
  | c :: cs =>
    if cls c then
      match takeClass1 cls cs with
      | some (run, rest) => some (c :: run, rest)
      | none => some ([c], cs)
    else none

/-- Consume a maximal possibly-empty run of class characters. -/
def takeClass0 (cls : Char → Bool) : List Char → List Char × List Char
  | [] => ([], [])
  | c :: cs =>
    if cls c then
      let p := takeClass0 cls cs
      (c :: p.1, p.2)
    else ([], c :: cs)

/-- The tail `tool[:s]+([a-zA-Z_-]+)` shared by the first two patterns:
the literal `tool`, then one or more colon-or-space characters, then the
captured name. Maximal munch is exact here because the separator class and
the name class are disjoint. -/
def matchToolTailAt (cs : List Char) : Option (List Char) :=
  match matchLitCI ['t', 'o', 'o', 'l'] cs with
  | none => none
  | some cs1 =>
    match takeClass1 (fun c => c = ':' || jsRegexSpace c) cs1 with
    | none => none
    | some (_, cs2) =>
      match takeClass1 isNameChar cs2 with
      | none => none
      | some (cap, _) => some cap

/-- Pattern `(?:use|call|invoke)s+(?:thes+)?tool[:s]+([a-zA-Z_-]+)` with the
i flag, anchored at the current position. The optional `the` group is tried
greedily first, with fallback, mirroring regex backtracking. -/
def matchP1At (cs : List Char) : Option (List Char) :=
  let verb :=
    match matchLitCI ['u', 's', 'e'] cs with
    | some r => some r
    | none =>
      match matchLitCI ['c', 'a', 'l', 'l'] cs with
      | some r => some r
      | none => matchLitCI ['i', 'n', 'v', 'o', 'k', 'e'] cs
  match verb with
  | none => none
  | some cs1 =>
    match takeClass1 jsRegexSpace cs1 with
    | none => none
    | some (_, cs2) =>
      let withThe :=
        match matchLitCI ['t', 'h', 'e'] cs2 with
        | none => none
        | some cs3 =>
          match takeClass1 jsRegexSpace cs3 with
          | none => none
          | some (_, cs4) => matchToolTailAt cs4
      match withThe with
      | some cap => some cap
      | none => matchToolTailAt cs2

/-- Pattern `tool[:s]+([a-zA-Z_-]+)` with the i flag, anchored at the
current position. -/
def matchP2At (cs : List Char) : Option (List Char) :=
  matchToolTailAt cs

/-- Pattern `[tool:s*([a-zA-Z_-]+)]` (square brackets literal) with the
i flag, anchored at the current position. -/
def matchP3At (cs : List Char) : Option (List Char) :=
  match cs with
  | c :: rest =>
    if c = '[' then
      match matchLitCI ['t', 'o', 'o', 'l', ':'] rest with
      | none => none
      | some cs1 =>
        let ws := takeClass0 jsRegexSpace cs1
        match takeClass1 isNameChar ws.2 with
        | none => none
        | some (cap, cs2) =>
          match cs2 with
          | b :: _ => if b = ']' then some cap else none
          | [] => none
    else none
  | [] => none

/-- Leftmost match: try the anchored matcher at each successive start
position, as `String.prototype.match` does with a non-global regex. -/
def scanLeftmost (m : List Char → Option (List Char)) : List Char → Option (List Char)
  | [] => m []
  | c :: cs =>
    match m (c :: cs) with
    | some r => some r
    | none => scanLeftmost m cs

/-- The capture of the first source pattern that matches anywhere in the
input; the patterns are tried in their source order. -/
def firstPatternCapture (cs : List Char) : Option (List Char) :=
  match scanLeftmost matchP1At cs with
  | some r => some r
  | none =>
    match scanLeftmost matchP2At cs with
    | some r => some r
    | none => scanLeftmost matchP3At cs

/-- The value class `[^',}]` without double quote, comma, closing brace or
newline, of the argument scraper. -/
def isArgValChar (c : Char) : Bool :=
  !(c = quoteD || c = quoteS || c = ',' || c = rbrace || c = '\n')

/-- The suffix `([^...]+)['"]?` of the argument scraper at an exact
position: the captured raw value, then an optional closing quote (consumed
by the match but not captured). Returns the capture and the remainder after
the full match. -/
def matchArgValueCore (cs : List Char) : Option (List Char × List Char) :=
  match takeClass1 isArgValChar cs with
  | none => none
  | some (v, rest) =>
    match rest with
    | c :: t => if c = quoteD || c = quoteS then some (v, t) else some (v, rest)
    | [] => some (v, [])

/-- The optional opening quote before the value: greedily consumed first,
with fallback, mirroring regex backtracking. -/
def matchArgValueQ (cs : List Char) : Option (List Char × List Char) :=
  match cs with
  | c :: t =>
    if c = quoteD || c = quoteS then
      match matchArgValueCore t with
      | some r => some r
      | none => matchArgValueCore cs
    else matchArgValueCore cs
  | [] => none

/-- The whitespace run `s*` before the value: greedy with backtracking,
because the value class also accepts the space character. -/
def matchArgWsValue : List Char → Option (List Char × List Char)
  | [] => none
  | c :: cs =>
    if jsRegexSpace c then
      match matchArgWsValue cs with
      | some r => some r
      | none => matchArgValueQ (c :: cs)
    else matchArgValueQ (c :: cs)

/-- One match of the scraper pattern `([a-zA-Z_]+):s*['"]?([^...]+)['"]?`
anchored at the current position: key, colon, then the value part. Returns
the key, the raw value capture, and the remainder after the match. -/
def matchArgAt (cs : List Char) : Option (String × String × List Char) :=
  match takeClass1 isKeyChar cs with
  | none => none
  | some (key, rest) =>
    match rest with
    | c :: cs1 =>
      if c = ':' then
        match matchArgWsValue cs1 with
        | some (v, after) => some (String.mk key, String.mk v, after)
        | none => none
      else none
    | [] => none

/-- Insert into the scraped-arguments object the way `args[key] = value`
does: a duplicate key keeps its first position but takes the new value. -/
def strInsert (l : List (String × String)) (k v : String) : List (String × String) :=
  if l.any (fun p => p.1 = k) then l.map (fun p => if p.1 = k then (k, v) else p)
  else l ++ [(k, v)]

/-- The global exec loop of the argument scraper: repeatedly find the
leftmost match from the current position, record the trimmed value, and
resume after the match. Fueled; every match consumes at least one character,
so the initial fuel of the caller always suffices. -/
def scrapeArgsFrom : Nat → List Char → List (String × String) → List (String × String)
  | 0, _, acc => acc
  | _ + 1, [], acc => acc
  | fuel + 1, c :: cs, acc =>
    match matchArgAt (c :: cs) with
    | some (k, v, rest) => scrapeArgsFrom fuel rest (strInsert acc k (jsTrim v))
    | none => scrapeArgsFrom fuel cs acc

/-- detectToolCallFromText: try the three tool-naming patterns in order; on
the first match, capture the tool name and scrape best-effort key-value
arguments from the whole response. -/
def detectToolCallFromText (response : String) : StructuredOutputResult :=
  let cs := response.data
  match firstPatternCapture cs with
  | some cap =>
    let args := scrapeArgsFrom (cs.length + 1) cs []
    { isToolCall := true
      toolCallRequest := some
        { toolName := String.mk cap
          arguments := Json.obj (args.map (fun p => (p.1, Json.str p.2))) }
      rawResponse := response
      detectionMethod := .textAnalysis }
  | none =>
    { isToolCall := false, toolCallRequest := none
      rawResponse := response, detectionMethod := .textAnalysis }

/-- detectToolCall: JSON parsing first, text analysis second, and a negative
result tagged json-parsing as the terminal fallback. -/
def detectToolCall (response : String) : StructuredOutputResult :=
  let jsonResult := detectToolCallFromJSON response
  if jsonResult.isToolCall then jsonResult
  else
    let textResult := detectToolCallFromText response
    if textResult.isToolCall then textResult
    else
      { isToolCall := false, toolCallRequest := none
        rawResponse := response, detectionMethod := .jsonParsing }

/-- Hexadecimal digit character (lowercase). -/
def hexDigitChar (n : Nat) : Char :=
  if n < 10 then Char.ofNat (48 + n) else Char.ofNat (87 + n)

/-- Four-digit hexadecimal rendering used by JSON string escapes. -/
def hex4 (n : Nat) : String :=
  String.mk [hexDigitChar (n / 4096 % 16), hexDigitChar (n / 256 % 16),
             hexDigitChar (n / 16 % 16), hexDigitChar (n % 16)]

/-- JSON.stringify escaping of one string character. -/
def escapeJsonChar (c : Char) : String :=
  if c = quoteD then "\\\""
  else if c = '\\' then "\\\\"
  else if c = '\n' then "\\n"
  else if c = '\r' then "\\r"
  else if c = '\t' then "\\t"
  else if c = Char.ofNat 8 then "\\b"
  else if c = Char.ofNat 12 then "\\f"
  else if c.toNat < 32 then "\\u" ++ hex4 c.toNat
  else String.singleton c

/-- JSON.stringify rendering of a string. -/
def quoteJsonString (s : String) : String :=
  String.singleton quoteD ++ String.join (s.data.map escapeJsonChar) ++ String.singleton quoteD

/-- Rendering of the exact-decimal number representation. JS prints doubles
in shortest-round-trip form; this model prints the mantissa and exponent
syntactically. No claim inspects a serialised number. -/
def numLit (m : Int) (e : Int) : String :=
  toString m ++ (if e = 0 then "" else "e" ++ toString e)

mutual

/-- The model of JSON.stringify on parsed values. -/
def Json.stringify : Json → String
  | .null => "null"
  | .bool b => cond b "true" "false"
  | .num m e => numLit m e
  | .str s => quoteJsonString s
  | .arr l => "[" ++ stringifyElems l ++ "]"
  | .obj l => "\x7b" ++ stringifyFields l ++ "\x7d"

/-- Comma-separated stringified array elements. -/
def stringifyElems : List Json → String
  | [] => ""
  | [x] => Json.stringify x
  | x :: y :: rest => Json.stringify x ++ "," ++ stringifyElems (y :: rest)

/-- Comma-separated stringified object fields. -/
def stringifyFields : List (String × Json) → String
  | [] => ""
  | [p] => quoteJsonString p.1 ++ ":" ++ Json.stringify p.2
  | p :: y :: rest => quoteJsonString p.1 ++ ":" ++ Json.stringify p.2 ++ "," ++ stringifyFields (y :: rest)

end

mutual

/-- JS template-literal coercion of a parsed value to text: strings verbatim,
null as the word null, arrays joined by commas with null elements blank,
plain objects as the bracketed object placeholder. -/
def jsDisplay : Json → String
  | .null => "null"
  | .bool b => cond b "true" "false"
  | .num m e => numLit m e
  | .str s => s
  | .arr l => jsDisplayList l
  | .obj _ => "[object Object]"

/-- Array toString: elements joined by commas, null rendered empty. -/
def jsDisplayList : List Json → String
  | [] => ""
  | [x] => (match x with | .null => "" | _ => jsDisplay x)
  | x :: y :: rest =>
    (match x with | .null => "" | _ => jsDisplay x) ++ "," ++ jsDisplayList (y :: rest)

end

/-- Message roles of the chat transcript. -/
inductive Role where
  | system : Role
  | user : Role
  | assistant : Role
deriving Repr, DecidableEq, Inhabited

/-- One transcript message. -/
structure ChatMessage where
  role : Role
  content : String
deriving Repr, DecidableEq, Inhabited

/-- A tool descriptor as listed by a connected server. The MCP type has an
optional string description and a structured input schema. -/
structure MCPTool where
  name : String
  description : Option String
  inputSchema : Json

/-- A connected MCP client as the session sees it: its tool catalog, its
tool-execution capability (an error value models a thrown execution
failure), whether it still holds a transport, and whether closing that
transport fails. -/
structure MClient where
  tools : List MCPTool
  callTool : Json → Json → Except String Json
  hasTransport : Bool
  closeFails : Bool

/-- JS strict equality between a string and a parsed value. -/
def jsStrictEqStr (s : String) (v : Json) : Bool :=
  match v with
  | .str t => s = t
  | _ => false

/-- The orchestrator response parser ChatSession.parseToolCallRequest:
JSON.parse the raw response and require only presence of the `tool` and
`arguments` fields; the field values are returned without any type check. -/
structure ParsedToolCall where
  tool : Json
  arguments : Json
deriving Repr

/-- Parse an LLM response for a tool call request; none when the response is
not JSON or lacks either field. -/
def parseToolCallRequest (llmResponse : String) : Option ParsedToolCall :=
  match parseJson llmResponse with
  | some p =>
    if p.isTruthy && p.typeofIsObject && p.hasField "tool" && p.hasField "arguments" then
      some { tool := (p.getField "tool").getD Json.null
             arguments := (p.getField "arguments").getD Json.null }
    else none
  | none => none

/-- First connected client whose catalog lists the requested tool name,
in client-map insertion order. -/
def findToolServer (clients : List (String × MClient)) (toolName : Json) : Option MClient :=
  match clients with
  | [] => none
  | (_, c) :: rest =>
    if c.tools.any (fun t => jsStrictEqStr t.name toolName) then some c
    else findToolServer rest toolName

/-- ChatSession.processLlmResponse: return the response unchanged when no
tool call is requested; otherwise execute the tool on the first server that
lists it, folding success, execution failure, and a missing server into a
result message. -/
def processLlmResponse (clients : List (String × MClient)) (llmResponse : String) : String :=
  match parseToolCallRequest llmResponse with
  | none => llmResponse
  | some ptc =>
    match findToolServer clients ptc.tool with
    | some c =>
      match c.callTool ptc.tool ptc.arguments with
      | .ok result => "Tool execution result: " ++ Json.stringify result
      | .error msg => "Error executing tool: " ++ msg
    | none => "No server found with tool: " ++ jsDisplay ptc.tool

/-- Object.entries on a parsed value: fields of an object, indexed elements
of an array, indexed characters of a string, empty otherwise. -/
def jsonEntries : Json → List (String × Json)
  | .obj l => l
  | .arr l => l.enum.map (fun p => (toString p.1, p.2))
  | .str s => s.data.enum.map (fun p => (toString p.1, Json.str (String.singleton p.2)))
  | _ => []

/-- The parameter description `info.description || 'No description'`,
template-coerced when the field holds a truthy value. -/
def paramDescription (info : Json) : String :=
  match info.getField "description" with
  | some d => if d.isTruthy then jsDisplay d else "No description"
  | none => "No description"

/-- The check `schema.required?.includes(paramName)`. Absent or null
`required` is guarded by optional chaining; a truthy non-array value would
throw in JS and is not exercised by the modelled configurations. -/
def requiredIncludes (schema : Json) (param : String) : Bool :=
  match schema.getField "required" with
  | some (.arr l) => l.any (fun v => jsStrictEqStr param v)
  | _ => false

/-- Rendering of one tool into the system prompt. -/
def buildToolDesc (tool : MCPTool) : String :=
  let descLine := match tool.description with
    | some d => if d ≠ "" then d else "No description"
    | none => "No description"
  let base := "Tool: " ++ tool.name ++ "\n" ++ "Description: " ++ descLine ++ "\n" ++ "Arguments:\n"
  if tool.inputSchema.isTruthy && tool.inputSchema.typeofIsObject
      && tool.inputSchema.hasField "properties" then
    let props := match tool.inputSchema.getField "properties" with
      | some v => if v.isTruthy then v else Json.obj []
      | none => Json.obj []
    let argsList := (jsonEntries props).map (fun p =>
      "- " ++ p.1 ++ ": " ++ paramDescription p.2
        ++ (if requiredIncludes tool.inputSchema p.1 then " (required)" else ""))
    base ++ String.intercalate "\n" argsList
  else base

/-- ChatSession.getAvailableTools: all tools of all connected servers in
client-map insertion order. -/
def getAvailableTools (clients : List (String × MClient)) : List MCPTool :=
  clients.flatMap (fun p => p.2.tools)

/-- ChatSession.buildSystemPrompt: the tool catalog rendered into
instructions plus the fixed JSON-shape explanation. -/
def buildSystemPrompt (clients : List (String × MClient)) : String :=
  let q := String.singleton quoteS
  let toolDescriptions := String.intercalate "\n" ((getAvailableTools clients).map buildToolDesc)
  String.intercalate "\n"
    [ "You are a helpful assistant with access to these tools:"
    , ""
    , toolDescriptions
    , ""
    , "Choose the appropriate tool based on the user" ++ q
        ++ "s question. If no tool is needed, reply directly."
    , ""
    , "IMPORTANT: When you need to use a tool, you must ONLY respond with the exact JSON object format below, nothing else:"
    , "\x7b"
    , "    \"tool\": \"tool-name\","
    , "    \"arguments\": \x7b"
    , "        \"argument-name\": \"value\""
    , "    \x7d"
    , "\x7d"
    , ""
    , "After receiving a tool" ++ q ++ "s response:"
    , "1. Transform the raw data into a natural, conversational response"
    , "2. Keep responses concise but informative"
    , "3. Focus on the most relevant information"
    , "4. Use appropriate context from the user" ++ q ++ "s question"
    , "5. Avoid simply repeating the raw data"
    , ""
    , "Please use only the tools that are explicitly defined above."
    ]

/-- ChatSession.cleanup: walk the client map in order; for each client that
still holds a transport, attempt to close it. The per-client try/catch turns
a close failure into a warning and never stops the walk. Returns the names
whose close was attempted and the names that produced warnings. -/
def cleanup : List (String × MClient) → List String × List String
  | [] => ([], [])
  | (n, c) :: rest =>
    if c.hasTransport then
      let p := cleanup rest
      (n :: p.1, (if c.closeFails then [n] else []) ++ p.2)
    else cleanup rest

/-- ASCII lowercasing; the quit/exit comparison only involves ASCII. -/
def asciiLower (s : String) : String :=
  String.mk (s.data.map Char.toLower)

/-- One observable event at the input suspension point: a line of user text,
an interrupt signal (the SIGINT handler runs), or a read failure (the
AbortError and generic-error paths, which both leave the loop). -/
inductive InEvent where
  | line : String → InEvent
  | interrupt : InEvent
  | readError : InEvent

/-- The mutable loop state: transcript, remaining scripted model responses,
and the user-visible assistant replies emitted so far. -/
structure LoopState where
  messages : List ChatMessage
  script : List (Except String String)
  emitted : List String

/-- How the chat loop ended: final state, whether the session-level catch
logged an error, and whether termination happened inside the interrupt
handler (which exits the process, skipping the finally block). -/
structure LoopExit where
  st : LoopState
  errorLogged : Bool
  viaInterrupt : Bool

/-- The chat loop of ChatSession.start. Each iteration reads one event;
a line that trims to quit or exit leaves the loop, any other line becomes a
user message followed by a model call, tool processing, and either the
direct-answer path or the tool-then-followup path. A scripted model failure
(or an exhausted script, modelled the same way) is an exception that the
session-level catch logs, ending the loop. -/
def chatLoop (clients : List (String × MClient)) :
    List InEvent → LoopState → LoopExit
  | [], st => ⟨st, false, false⟩
  | ev :: evs, st =>
    match ev with
    | .interrupt => ⟨st, false, true⟩
    | .readError => ⟨st, false, false⟩
    | .line s =>
      let userInput := jsTrim s
      if asciiLower userInput = "quit" || asciiLower userInput = "exit" then ⟨st, false, false⟩
      else
        let msgs1 := st.messages ++ [⟨.user, userInput⟩]
        match st.script with
        | [] => ⟨⟨msgs1, [], st.emitted⟩, true, false⟩
        | .error _ :: rest => ⟨⟨msgs1, rest, st.emitted⟩, true, false⟩
        | .ok resp :: rest =>
          let result := processLlmResponse clients resp
          if result ≠ resp then
            let msgs2 := msgs1 ++ [⟨.assistant, resp⟩, ⟨.system, result⟩]
            match rest with
            | [] => ⟨⟨msgs2, [], st.emitted⟩, true, false⟩
            | .error _ :: rest2 => ⟨⟨msgs2, rest2, st.emitted⟩, true, false⟩
            | .ok finalResp :: rest2 =>
              chatLoop clients evs ⟨msgs2 ++ [⟨.assistant, finalResp⟩], rest2, st.emitted ++ [finalResp]⟩
          else
            chatLoop clients evs ⟨msgs1 ++ [⟨.assistant, resp⟩], rest, st.emitted ++ [resp]⟩

/-- The observable outcome of one whole session. -/
structure SessionTrace where
  messages : List ChatMessage
  emitted : List String
  closeAttempts : List String
  cleanupRuns : Nat
  sessionErrorLogged : Bool

/-- ChatSession.start: seed the transcript with the system message, run the
chat loop, then release resources. On the interrupt path the signal handler
itself runs cleanup and exits the process, skipping the finally block; on
every other path the finally block runs cleanup. Either way cleanup runs
exactly once. -/
def startSession (clients : List (String × MClient))
    (script : List (Except String String)) (events : List InEvent) : SessionTrace :=
  let initState : LoopState := ⟨[⟨Role.system, buildSystemPrompt clients⟩], script, []⟩
  let ex := chatLoop clients events initState
  let cl := cleanup clients
  if ex.viaInterrupt then
    { messages := ex.st.messages, emitted := ex.st.emitted
      closeAttempts := cl.1, cleanupRuns := 1, sessionErrorLogged := ex.errorLogged }
  else
    { messages := ex.st.messages, emitted := ex.st.emitted
      closeAttempts := cl.1, cleanupRuns := 1, sessionErrorLogged := ex.errorLogged }

/-- Substring test used to state containment properties. -/
def strContains (hay needle : String) : Bool :=
  go hay.data
where
  go : List Char → Bool
    | [] => needle.data.isPrefixOf ([] : List Char)
    | c :: cs => needle.data.isPrefixOf (c :: cs) || go cs

/-- A parsed candidate whose `arguments` field is present but not
object-typed in the JS sense. -/
def argsNotObjectTyped (p : Json) : Bool :=
  match p.getField "arguments" with
  | some a => !a.typeofIsObject
  | none => false

/-- The input schema of the scenario echo tool. -/
def echoSchema : Json :=
  Json.obj
    [ ("type", Json.str "object")
    , ("properties", Json.obj
        [("message", Json.obj
          [("type", Json.str "string"), ("description", Json.str "Message to echo")])])
    , ("required", Json.arr [Json.str "message"]) ]

/-- The scenario client: one echo tool whose executor returns the text
result of the orchestrator scenario. -/
def echoClient : MClient :=
  { tools := [{ name := "echo", description := some "Echoes back the message"
                inputSchema := echoSchema }]
    callTool := fun _ _ => Except.ok (Json.str "Echo: test")
    hasTransport := true
    closeFails := false }

/-- The scenario client map. -/
def scenarioClients : List (String × MClient) := [("test", echoClient)]

/-- The scenario-A model response. -/
def jsonA : String := "\x7b\"tool\":\"echo\",\"arguments\":\x7b\"message\":\"Hello World\"\x7d\x7d"

/-- The scenario model script: the tool-call JSON, then the followup. -/
def scenarioScript : List (Except String String) :=
  [Except.ok jsonA, Except.ok "Followup answer."]

/-- The scenario input events: the user turn, then exit. -/
def scenarioEvents : List InEvent :=
  [InEvent.line "Use a tool", InEvent.line "exit"]

/-- A successful key lookup witnesses the field-presence test. -/
theorem lookup_any {l : List (String × Json)} {k : String} {v : Json}
    (h : lookupField l k = some v) : (l.any (fun p => p.1 = k)) = true := by
  induction l with
  | nil => simp [lookupField] at h
  | cons p rest ih =>
    rw [lookupField] at h
    by_cases hk : p.1 = k
    · simp [List.any_cons, hk]
    · rw [if_neg hk] at h
      simp [List.any_cons, ih h]

/-- The shape test accepts an object with a string tool field and an
object-typed arguments field, recovering both. -/
theorem checkToolShape_pos {l : List (String × Json)} {s : String} {a : Json}
    (ht : lookupField l "tool" = some (Json.str s))
    (ha : lookupField l "arguments" = some a)
    (hobj : a.typeofIsObject = true) :
    checkToolShape (Json.obj l) = some (s, a) := by
  have h3 : (Json.obj l).hasField "tool" = true := by
    simpa [Json.hasField] using lookup_any ht
  have h4 : (Json.obj l).hasField "arguments" = true := by
    simpa [Json.hasField] using lookup_any ha
  cases a with
  | null =>
    unfold checkToolShape
    simp [Json.isTruthy, Json.typeofIsObject, Json.getField, h3, h4, ht, ha]
  | arr xs =>
    unfold checkToolShape
    simp [Json.isTruthy, Json.typeofIsObject, Json.getField, h3, h4, ht, ha]
  | obj xs =>
    unfold checkToolShape
    simp [Json.isTruthy, Json.typeofIsObject, Json.getField, h3, h4, ht, ha]
  | bool b => simp [Json.typeofIsObject] at hobj
  | num m e => simp [Json.typeofIsObject] at hobj
  | str u => simp [Json.typeofIsObject] at hobj

/-- A whole-input parse that passes the shape test makes the JSON detector
return the positive json-parsing result. -/
theorem detectFromJSON_whole {t s : String} {a : Json}
    (h : (parseJson (jsTrim t)).bind checkToolShape = some (s, a)) :
    detectToolCallFromJSON t =
      { isToolCall := true
        toolCallRequest := some { toolName := s, arguments := a }
        rawResponse := t, detectionMethod := .jsonParsing } := by
  unfold detectToolCallFromJSON
  rw [h]

/-- A positive JSON detection is returned unchanged by detectToolCall. -/
theorem detectToolCall_of_jsonPos {t : String}
    (h : (detectToolCallFromJSON t).isToolCall = true) :
    detectToolCall t = detectToolCallFromJSON t := by
  unfold detectToolCall
  simp [h]

/-- Every result of the JSON detector carries the json-parsing tag. -/
theorem detectFromJSON_method (t : String) :
    (detectToolCallFromJSON t).detectionMethod = DetectionMethod.jsonParsing := by
  unfold detectToolCallFromJSON
  split
  · rfl
  · split
    · split
      · rfl
      · rfl
    · rfl

/-- C1: for every input whose whole trimmed content parses as a JSON object
with a string field tool = s and an object field arguments = o,
detectToolCall returns the positive json-parsing result recovering s and o. -/
theorem detectToolCall_whole_json_shape (t : String) (l : List (String × Json))
    (s : String) (o : List (String × Json))
    (hp : parseJson (jsTrim t) = some (Json.obj l))
    (ht : lookupField l "tool" = some (Json.str s))
    (ha : lookupField l "arguments" = some (Json.obj o)) :
    detectToolCall t =
      { isToolCall := true
        toolCallRequest := some { toolName := s, arguments := Json.obj o }
        rawResponse := t, detectionMethod := .jsonParsing } := by
  have hbind : (parseJson (jsTrim t)).bind checkToolShape = some (s, Json.obj o) := by
    rw [hp]
    exact checkToolShape_pos ht ha rfl
  have hj := detectFromJSON_whole hbind
  rw [detectToolCall_of_jsonPos (by rw [hj]), hj]

/-- Witness for C1 at the scenario-A input. -/
theorem detectToolCall_whole_json_shape_witness :
    detectToolCall "\x7b\"tool\":\"echo\",\"arguments\":\x7b\"message\":\"Hello World\"\x7d\x7d" =
      { isToolCall := true
        toolCallRequest := some { toolName := "echo"
                                  arguments := Json.obj [("message", Json.str "Hello World")] }
        rawResponse := "\x7b\"tool\":\"echo\",\"arguments\":\x7b\"message\":\"Hello World\"\x7d\x7d"
        detectionMethod := .jsonParsing } :=
  detectToolCall_whole_json_shape _
    [("tool", Json.str "echo"), ("arguments", Json.obj [("message", Json.str "Hello World")])]
    "echo" [("message", Json.str "Hello World")] rfl rfl rfl

/-- C4: when an input satisfies both the JSON shape (the JSON detector
fires) and a text pattern (the text detector fires), detectToolCall returns
the JSON-derived result, tagged json-parsing, never text-analysis. -/
theorem detectToolCall_json_precedence (t : String)
    (hj : (detectToolCallFromJSON t).isToolCall = true)
    (_ht : (detectToolCallFromText t).isToolCall = true) :
    detectToolCall t = detectToolCallFromJSON t ∧
    (detectToolCall t).detectionMethod = DetectionMethod.jsonParsing := by
  have h := detectToolCall_of_jsonPos hj
  exact ⟨h, by rw [h, detectFromJSON_method]⟩

/-- Witness for C4: an input matching a text pattern and carrying an
embedded shaped JSON object. -/
theorem detectToolCall_json_precedence_witness :
    detectToolCall "Using tool: wrong \x7b\"tool\": \"correct\", \"arguments\": \x7b\x7d\x7d"
        = detectToolCallFromJSON "Using tool: wrong \x7b\"tool\": \"correct\", \"arguments\": \x7b\x7d\x7d"
      ∧ (detectToolCall "Using tool: wrong \x7b\"tool\": \"correct\", \"arguments\": \x7b\x7d\x7d").detectionMethod
        = DetectionMethod.jsonParsing :=
  detectToolCall_json_precedence _ rfl rfl

/-- C7: in the result of each detection function, the toolCallRequest field
is present exactly when isToolCall is true; in particular an input matching
neither shape yields a negative result with the request absent. -/
theorem detection_result_invariant (t : String) :
    ((detectToolCallFromJSON t).toolCallRequest.isSome = (detectToolCallFromJSON t).isToolCall)
  ∧ ((detectToolCallFromText t).toolCallRequest.isSome = (detectToolCallFromText t).isToolCall)
  ∧ ((detectToolCall t).toolCallRequest.isSome = (detectToolCall t).isToolCall) := by
  have hjson : (detectToolCallFromJSON t).toolCallRequest.isSome = (detectToolCallFromJSON t).isToolCall := by
    unfold detectToolCallFromJSON
    split
    · rfl
    · split
      · split
        · rfl
        · rfl
      · rfl
  have htext : (detectToolCallFromText t).toolCallRequest.isSome = (detectToolCallFromText t).isToolCall := by
    unfold detectToolCallFromText
    cases h : firstPatternCapture t.data with
    | some cap => simp [h]
    | none => simp [h]
  refine ⟨hjson, htext, ?_⟩
  unfold detectToolCall
  by_cases hj : (detectToolCallFromJSON t).isToolCall
  · simpa [hj] using hjson
  · by_cases ht : (detectToolCallFromText t).isToolCall
    · simpa [hj, ht] using htext
    · simp [hj, ht]

/-- C10: the JS typeof-object check lets null-valued and array-valued
arguments fields through the JSON shape test. -/
theorem json_shape_accepts_null_and_array_args :
    detectToolCallFromJSON "\x7b\"tool\": \"x\", \"arguments\": null\x7d" =
      { isToolCall := true
        toolCallRequest := some { toolName := "x", arguments := Json.null }
        rawResponse := "\x7b\"tool\": \"x\", \"arguments\": null\x7d"
        detectionMethod := .jsonParsing }
  ∧ detectToolCallFromJSON "\x7b\"tool\": \"x\", \"arguments\": [1, 2]\x7d" =
      { isToolCall := true
        toolCallRequest := some { toolName := "x"
                                  arguments := Json.arr [Json.num 1 0, Json.num 2 0] }
        rawResponse := "\x7b\"tool\": \"x\", \"arguments\": [1, 2]\x7d"
        detectionMethod := .jsonParsing } :=
  ⟨rfl, rfl⟩

/-- C3 counterexample: an input that properly contains a valid shaped JSON
object surrounded by prose, where the prose contributes an extra opening
brace, so the greedy first-brace-to-last-brace span is not valid JSON and
detection fails entirely. -/
theorem embedded_json_extra_brace_cex :
    strContains "x\x7b \x7b\"tool\": \"a\", \"arguments\": \x7b\x7d\x7d y"
        "\x7b\"tool\": \"a\", \"arguments\": \x7b\x7d\x7d" = true
  ∧ (detectToolCallFromJSON "\x7b\"tool\": \"a\", \"arguments\": \x7b\x7d\x7d").isToolCall = true
  ∧ detectToolCall "x\x7b \x7b\"tool\": \"a\", \"arguments\": \x7b\x7d\x7d y" =
      { isToolCall := false, toolCallRequest := none
        rawResponse := "x\x7b \x7b\"tool\": \"a\", \"arguments\": \x7b\x7d\x7d y"
        detectionMethod := .jsonParsing } :=
  ⟨rfl, rfl, rfl⟩

/-- C3 as amended: when the greedy first-brace-to-last-brace span of the
input parses as JSON and passes the shape test (in particular, when the
surrounding prose contributes no extra braces around an embedded shaped
object), detection succeeds via json-parsing. -/
theorem detectToolCall_embedded_span_shape (t sub : String) (p : Json) (s : String) (a : Json)
    (hspan : jsonSpanMatch t = some sub)
    (hparse : parseJson sub = some p)
    (hshape : checkToolShape p = some (s, a)) :
    (detectToolCall t).isToolCall = true ∧
    (detectToolCall t).detectionMethod = DetectionMethod.jsonParsing := by
  have hj : (detectToolCallFromJSON t).isToolCall = true := by
    unfold detectToolCallFromJSON
    cases hw : (parseJson (jsTrim t)).bind checkToolShape with
    | some q => rfl
    | none =>
      have hb : (parseJson sub).bind checkToolShape = some (s, a) := by
        rw [hparse]
        exact hshape
      simp [hspan, hb]
  rw [detectToolCall_of_jsonPos hj]
  exact ⟨hj, detectFromJSON_method t⟩

/-- Witness for the amended C3 at the embedded-JSON input of the
repository's own test. -/
theorem detectToolCall_embedded_span_shape_witness :
    (detectToolCall "Here is the tool call: \x7b\"tool\": \"add\", \"arguments\": \x7b\"a\": 5, \"b\": 3\x7d\x7d for you").isToolCall = true
  ∧ (detectToolCall "Here is the tool call: \x7b\"tool\": \"add\", \"arguments\": \x7b\"a\": 5, \"b\": 3\x7d\x7d for you").detectionMethod
      = DetectionMethod.jsonParsing :=
  detectToolCall_embedded_span_shape _
    "\x7b\"tool\": \"add\", \"arguments\": \x7b\"a\": 5, \"b\": 3\x7d\x7d"
    (Json.obj [("tool", Json.str "add"),
               ("arguments", Json.obj [("a", Json.num 5 0), ("b", Json.num 3 0)])])
    "add" (Json.obj [("a", Json.num 5 0), ("b", Json.num 3 0)]) rfl rfl rfl

/-- C5: when the JSON detector fails and one of the tool-naming text
patterns matches, detectToolCall returns a positive text-analysis result
whose tool name is the capture of the first matching pattern. -/
theorem detectToolCall_text_fallback (t : String) (cap : List Char)
    (hjson : (detectToolCallFromJSON t).isToolCall = false)
    (hcap : firstPatternCapture t.data = some cap) :
    (detectToolCall t).isToolCall = true
  ∧ (detectToolCall t).detectionMethod = DetectionMethod.textAnalysis
  ∧ ((detectToolCall t).toolCallRequest.map ToolCallRequest.toolName) = some (String.mk cap) := by
  have htext : detectToolCallFromText t =
      { isToolCall := true
        toolCallRequest := some
          { toolName := String.mk cap
            arguments := Json.obj ((scrapeArgsFrom (t.data.length + 1) t.data []).map
              (fun p => (p.1, Json.str p.2))) }
        rawResponse := t, detectionMethod := .textAnalysis } := by
    unfold detectToolCallFromText
    simp [hcap]
  have hcall : detectToolCall t = detectToolCallFromText t := by
    unfold detectToolCall
    simp [hjson, htext]
  rw [hcall, htext]
  exact ⟨rfl, rfl, rfl⟩

/-- Witness for C5 at the scenario-B input. -/
theorem detectToolCall_text_fallback_witness :
    (detectToolCall "I will use tool: add to calculate the sum").isToolCall = true
  ∧ (detectToolCall "I will use tool: add to calculate the sum").detectionMethod
      = DetectionMethod.textAnalysis
  ∧ ((detectToolCall "I will use tool: add to calculate the sum").toolCallRequest.map
      ToolCallRequest.toolName) = some "add" :=
  detectToolCall_text_fallback _ ['a', 'd', 'd'] rfl rfl

/-- A candidate whose arguments field is present but not object-typed is
rejected by the shape test. -/
theorem checkToolShape_none_of_argsNotObject {p : Json}
    (h : argsNotObjectTyped p = true) : checkToolShape p = none := by
  unfold argsNotObjectTyped at h
  cases ha : p.getField "arguments" with
  | none => rw [ha] at h; simp at h
  | some a =>
    rw [ha] at h
    simp only [Bool.not_eq_true'] at h
    unfold checkToolShape
    by_cases hc : (p.isTruthy && p.typeofIsObject && p.hasField "tool" && p.hasField "arguments") = true
    · rw [if_pos hc, ha]
      cases ht : p.getField "tool" with
      | none => rfl
      | some v =>
        cases v with
        | str s => simp [h]
        | null => rfl
        | bool b => rfl
        | num m e => rfl
        | arr l => rfl
        | obj l => rfl
    · rw [if_neg hc]

/-- C6 counterexample: the orchestrator's own response parser checks only
field presence, so a non-object arguments value is accepted and the
response is treated as a tool call. -/
theorem parseToolCallRequest_nonobject_args_cex :
    parseToolCallRequest "\x7b\"tool\": \"x\", \"arguments\": 5\x7d" =
      some { tool := Json.str "x", arguments := Json.num 5 0 }
  ∧ processLlmResponse [] "\x7b\"tool\": \"x\", \"arguments\": 5\x7d" =
      "No server found with tool: x" :=
  ⟨rfl, rfl⟩

/-- C6 as amended: the detection engine's JSON path rejects every candidate
whose arguments field is not object-typed, in both the whole-input branch
and the embedded-span branch. -/
theorem jsonDetector_rejects_nonobject_args (t : String)
    (h1 : (parseJson (jsTrim t)).all argsNotObjectTyped = true)
    (h2 : ((jsonSpanMatch t).bind parseJson).all argsNotObjectTyped = true) :
    (detectToolCallFromJSON t).isToolCall = false ∧
    (detectToolCallFromJSON t).toolCallRequest = none := by
  have hwhole : (parseJson (jsTrim t)).bind checkToolShape = none := by
    cases hw : parseJson (jsTrim t) with
    | none => rfl
    | some p =>
      rw [hw] at h1
      simp only [Option.all] at h1
      exact checkToolShape_none_of_argsNotObject h1
  cases hs : jsonSpanMatch t with
  | none =>
    unfold detectToolCallFromJSON
    rw [hwhole, hs]
    exact ⟨rfl, rfl⟩
  | some sub =>
    have h2a : (parseJson sub).all argsNotObjectTyped = true := by
      rw [hs] at h2
      exact h2
    have hspanbind : (parseJson sub).bind checkToolShape = none := by
      cases hp : parseJson sub with
      | none => rfl
      | some q =>
        rw [hp] at h2a
        simp only [Option.all] at h2a
        exact checkToolShape_none_of_argsNotObject h2a
    unfold detectToolCallFromJSON
    rw [hwhole]
    simp [hs, hspanbind]

/-- Witness for the amended C6: a string tool field with a numeric
arguments field is rejected by the JSON detector. -/
theorem jsonDetector_rejects_nonobject_args_witness :
    (detectToolCallFromJSON "\x7b\"tool\": \"x\", \"arguments\": 5\x7d").isToolCall = false
  ∧ (detectToolCallFromJSON "\x7b\"tool\": \"x\", \"arguments\": 5\x7d").toolCallRequest = none :=
  jsonDetector_rejects_nonobject_args _ rfl rfl

/-- C2: the orchestrator scenario. One user turn whose model response is the
scenario-A JSON and whose tool executor returns the echo text produces,
in order: the initial system message, the user message, an assistant message
equal to the raw JSON, a system message containing the tool result, and the
followup assistant message; exactly one user-visible reply is emitted. -/
theorem orchestrator_tool_turn_transcript :
    (startSession scenarioClients scenarioScript scenarioEvents).messages =
      [ { role := Role.system, content := buildSystemPrompt scenarioClients }
      , { role := Role.user, content := "Use a tool" }
      , { role := Role.assistant, content := jsonA }
      , { role := Role.system, content := "Tool execution result: \"Echo: test\"" }
      , { role := Role.assistant, content := "Followup answer." } ]
  ∧ strContains "Tool execution result: \"Echo: test\"" "Echo: test" = true
  ∧ (startSession scenarioClients scenarioScript scenarioEvents).emitted = ["Followup answer."] :=
  ⟨rfl, rfl, rfl⟩

/-- The close attempts of one cleanup pass are exactly the clients that
still hold a transport, in order, independently of which closes fail. -/
theorem cleanup_fst (clients : List (String × MClient)) :
    (cleanup clients).1 =
      clients.filterMap (fun p => if p.2.hasTransport then some p.1 else none) := by
  induction clients with
  | nil => rfl
  | cons p rest ih =>
    obtain ⟨n, c⟩ := p
    by_cases h : c.hasTransport
    · simp [cleanup, h, ih]
    · simp [cleanup, h, ih]

/-- C9: however a session ends - exit or quit line, interrupt, read failure,
provider error, or input exhaustion - cleanup runs exactly once, and the
close operation is attempted exactly once for every connection-holding
client, regardless of which close calls fail. -/
theorem cleanup_exactly_once (clients : List (String × MClient))
    (script : List (Except String String)) (events : List InEvent) :
    (startSession clients script events).cleanupRuns = 1 ∧
    (startSession clients script events).closeAttempts =
      clients.filterMap (fun p => if p.2.hasTransport then some p.1 else none) := by
  refine ⟨?_, ?_⟩ <;> simp [startSession, cleanup_fst]

/-- C8 counterexample: after a provider error on the first turn the session
terminates; the next queued user input is never consumed (the transcript
stops at the first user message) and no reply is ever emitted. -/
theorem provider_error_session_continues_cex :
    (startSession [] [Except.error "LLM API error", Except.ok "recovered"]
        [InEvent.line "hello", InEvent.line "again"]).messages.length = 2
  ∧ (startSession [] [Except.error "LLM API error", Except.ok "recovered"]
        [InEvent.line "hello", InEvent.line "again"]).emitted = []
  ∧ (startSession [] [Except.error "LLM API error", Except.ok "recovered"]
        [InEvent.line "hello", InEvent.line "again"]).sessionErrorLogged = true :=
  ⟨rfl, rfl, rfl⟩

/-- C8 as amended: a model-call failure propagates to the session-level
handler: the error is logged, the session terminates without consuming any
further input and without emitting a reply for the turn, and cleanup still
runs exactly once. -/
theorem provider_error_ends_session (clients : List (String × MClient))
    (s : String) (e : String) (rest : List (Except String String)) (evs : List InEvent)
    (hq : asciiLower (jsTrim s) ≠ "quit")
    (he : asciiLower (jsTrim s) ≠ "exit") :
    (startSession clients (Except.error e :: rest) (InEvent.line s :: evs)).sessionErrorLogged = true
  ∧ (startSession clients (Except.error e :: rest) (InEvent.line s :: evs)).messages =
      [ { role := Role.system, content := buildSystemPrompt clients }
      , { role := Role.user, content := jsTrim s } ]
  ∧ (startSession clients (Except.error e :: rest) (InEvent.line s :: evs)).emitted = []
  ∧ (startSession clients (Except.error e :: rest) (InEvent.line s :: evs)).cleanupRuns = 1 := by
  have hloop : chatLoop clients (InEvent.line s :: evs)
      ⟨[⟨Role.system, buildSystemPrompt clients⟩], Except.error e :: rest, []⟩ =
      ⟨⟨[⟨Role.system, buildSystemPrompt clients⟩, ⟨Role.user, jsTrim s⟩], rest, []⟩, true, false⟩ := by
    unfold chatLoop
    simp [hq, he]
  refine ⟨?_, ?_, ?_, ?_⟩ <;> simp [startSession, hloop]

/-- Witness for the amended C8 at a concrete session. -/
theorem provider_error_ends_session_witness :
    (startSession [] [Except.error "boom"] [InEvent.line "hello"]).sessionErrorLogged = true
  ∧ (startSession [] [Except.error "boom"] [InEvent.line "hello"]).messages =
      [ { role := Role.system, content := buildSystemPrompt [] }
      , { role := Role.user, content := jsTrim "hello" } ]
  ∧ (startSession [] [Except.error "boom"] [InEvent.line "hello"]).emitted = []
  ∧ (startSession [] [Except.error "boom"] [InEvent.line "hello"]).cleanupRuns = 1 :=
  provider_error_ends_session [] "hello" "boom" [] [] (by decide) (by decide)
